import Mathlib

set_option maxRecDepth 16000

/- Verification development for the py-lua-doc documentation-model builder.
   The Lean definitions below are a shallow embedding of the Python sources
   (model.py, luadoc.py, emmylua.py, parser.py, core.py).  Python heap objects
   that are mutated through several references at once are modelled with
   per-kind arenas indexed by Nat; Python exceptions are modelled with
   Except/Option results.  External collaborators (the luaparser syntax tree
   and the parsimonious PEG library) are modelled by a small node type and a
   hand-written PEG parser following the grammar string verbatim; the
   parsimonious NodeVisitor visits children before their parent node, which the
   visitor functions below replicate.  In the luaparser AST hierarchy,
   LocalFunction subclasses Function, LocalAssign subclasses Assign, and Method
   subclasses Statement (not Function). -/

namespace PyLuaDoc

/-- Visibility enum (source: model.LuaVisibility, values public / protected /
private, abbreviated pub / prot / priv). -/
inductive LuaVisibility where
  | pub
  | prot
  | priv
deriving DecidableEq, Repr

/-- Type expressions (source: the LuaType class hierarchy of model.py).
`callable` keeps the optional `arg_names` field of LuaTypeCallable, which
defaults to None in Python. -/
inductive LuaType where
  | nil
  | boolean
  | number
  | string
  | function
  | userdata
  | thread
  | table
  | any
  | array (elt : LuaType)
  | custom (name : String)
  | dict (key value : LuaType)
  | callable (arg_types : List LuaType) (arg_names : Option (List String))
      (return_types : List LuaType)
  | or (types : List LuaType)

/-- Source: model.LuaParam (default type Any, default_value starts as ""). -/
structure LuaParam where
  name : String
  desc : String := ""
  type : LuaType := .any
  is_opt : Bool := false
  default_value : String := ""

/-- Source: model.LuaReturn. -/
structure LuaReturn where
  desc : String := ""
  type : LuaType := .any

/-- Source: model.LuaFunction.  The start/stop character span of LuaSourceNode
is omitted: no claim concerns source spans. -/
structure LuaFunction where
  name : String
  short_desc : String := ""
  desc : String := ""
  params : List LuaParam := []
  returns : List LuaReturn := []
  usage : String := ""
  is_virtual : Bool := false
  is_abstract : Bool := false
  is_deprecated : Bool := false
  is_static : Bool := false
  visibility : LuaVisibility := .pub

/-- Source: model.LuaClassField (default visibility public). -/
structure LuaClassField where
  name : String
  desc : String := ""
  type : LuaType := .any
  visibility : LuaVisibility := .pub

/-- Source: model.LuaClass. -/
structure LuaClass where
  name : String := "unknown"
  name_in_source : String := ""
  methods : List LuaFunction := []
  short_desc : String := ""
  desc : String := ""
  usage : String := ""
  inherits_from : List String := []
  fields : List LuaClassField := []

/-- Shared fields of model.LuaData (default visibility private). -/
structure DataCore where
  name : String
  short_desc : String := ""
  desc : String := ""
  visibility : LuaVisibility := .priv
  constant : Bool := false

/-- Literal scalar extracted from source by astutils.get_value (Python
str/number/bool/None).  Float literals are not modelled; no claim uses them. -/
inductive PyVal where
  | str (s : String)
  | num (n : Int)
  | boolean (b : Bool)
  | nil

/-- Source: model.LuaData and its LuaDict / LuaValue subclasses.  A dict field
carries (name, desc) as in LuaDictField. -/
inductive LuaData where
  | base (core : DataCore)
  | dictData (core : DataCore) (fields : List (String × String))
  | value (core : DataCore) (type : LuaType) (val : Option PyVal)

/-- Source: model.LuaModule. -/
structure LuaModule where
  name : String
  file_path : String := ""
  classes : List LuaClass := []
  functions : List LuaFunction := []
  data : List LuaData := []
  is_class_mod : Bool := false
  short_desc : String := ""
  desc : String := ""
  usage : String := ""

/-- Source: the LuaQualifier class hierarchy of model.py. -/
inductive LuaQualifier where
  | virtualQ
  | abstractQ
  | deprecatedQ
  | privateQ
  | protectedQ

/-- Fragments produced while resolving a comment block (the values routed by
TreeVisitor._type_handler; LuaClassField has no handler entry there). -/
inductive LuaNode where
  | functionNode (f : LuaFunction)
  | classNode (c : LuaClass)
  | moduleNode (m : LuaModule)
  | dataNode (d : LuaData)
  | fieldNode (f : LuaClassField)

/-- Embeds `parse_type` (luadoc.py; an identical copy sits in emmylua.py).
Two comparisons are reproduced exactly as written in the source: the userdata
branch tests the misspelled literal "userdate", so the string "userdata" never
reaches it, and the table branch tests `type_str == ["table", "tab"]`, a
comparison between a string and a list, which is false for every string. -/
def parse_type (type_str : String) : LuaType :=
  if type_str = "nil" then .nil
  else if type_str = "bool" ∨ type_str = "boolean" then .boolean
  else if type_str = "number" ∨ type_str = "int" ∨ type_str = "float" then .number
  else if type_str = "string" then .string
  else if type_str = "function" ∨ type_str = "func" ∨ type_str = "fun" then .function
  else if type_str = "userdate" then .userdata
  else if type_str = "thread" then .thread
  else if False then .table
  else if type_str = "any" then .any
  else .custom type_str

/- ------------------------------------------------------------------ -/
/- Python string primitives used by the parser code.                   -/
/- ------------------------------------------------------------------ -/

/-- Split a character list at every separator character (keeping empty
pieces, like Python `str.split(sep)`). -/
def charSplit (p : Char → Bool) : List Char → List (List Char)
  | [] => [[]]
  | c :: rest =>
      match charSplit p rest with
      | [] => [[c]]
      | h :: t => if p c then [] :: h :: t else (c :: h) :: t

/-- Python `s.split(sep)` for a one-character separator. -/
def pySplitChar (s : String) (sep : Char) : List String :=
  (charSplit (· = sep) s.data).map (fun cs => ⟨cs⟩)

/-- Python `sep.join(l)`. -/
def pyJoin (sep : String) : List String → String
  | [] => ""
  | [x] => x
  | x :: rest => x ++ sep ++ pyJoin sep rest

/-- Python `str.strip()` (whitespace at both ends). -/
def pyStrip (s : String) : String :=
  ⟨((s.data.dropWhile Char.isWhitespace).reverse.dropWhile
      Char.isWhitespace).reverse⟩

/-- Python `str.split()` with no separator: split on whitespace runs and drop
empty pieces. -/
def pySplitWs (s : String) : List String :=
  ((charSplit Char.isWhitespace s.data).map (fun cs => (⟨cs⟩ : String))).filter
    (· ≠ "")

/-- Python `s.split(" ", 1)`. -/
def pySplitOnceSpace (s : String) : List String :=
  match pySplitChar s ' ' with
  | [] => [s]
  | [x] => [x]
  | x :: rest => [x, pyJoin " " rest]

/-- Python `s.split(" ", 2)`. -/
def pySplitTwiceSpace (s : String) : List String :=
  match pySplitChar s ' ' with
  | [] => [s]
  | [x] => [x]
  | [x, y] => [x, y]
  | x :: y :: rest => [x, y, pyJoin " " rest]

/-- Python `s.lstrip(chars)`: drop leading characters belonging to the set. -/
def pyLstripChars (s chars : String) : String :=
  ⟨s.data.dropWhile (fun c => chars.data.contains c)⟩

/-- Python slice `s[n:]` counted in characters. -/
def pyDrop (s : String) (n : Nat) : String :=
  ⟨s.data.drop n⟩

/-- Python `"\n".join(lines)`. -/
def pyJoinNl (lines : List String) : String :=
  pyJoin "\n" lines

/-- Python `s.startswith(p)`. -/
def pyStartsWith (s p : String) : Bool :=
  p.data.isPrefixOf s.data

/-- In-place mutation of one arena slot (Python object mutation through a
reference). -/
def listModify {α : Type} : List α → Nat → (α → α) → List α
  | [], _, _ => []
  | x :: xs, 0, g => g x :: xs
  | x :: xs, n + 1, g => x :: listModify xs n g

/-- Python `list.pop()`: remove and return the last element. -/
def pyPop {α : Type} (l : List α) : Option (List α × α) :=
  match l.getLast? with
  | none => none
  | some x => some (l.dropLast, x)

/-- Python `l[-1] = l[-1] + 1` (IndexError on an empty list). -/
def pyIncLast (l : List Nat) : Option (List Nat) :=
  match l.getLast? with
  | none => none
  | some x => some (l.dropLast ++ [x + 1])

/- ------------------------------------------------------------------ -/
/- EmmyLua type grammar (emmylua.py): PEG parse trees.                 -/
/- The parsers below follow EMMY_LUA_TYPE_GRAMMAR rule by rule, with   -/
/- parsimonious semantics: ordered choice, greedy repetition with      -/
/- per-iteration backtracking, and Grammar.parse requiring the whole   -/
/- input to be consumed.                                               -/
/- ------------------------------------------------------------------ -/

/-- First character of rule `id`: `[_a-zA-Z]`. -/
def isIdFirst (c : Char) : Bool := c = '_' || c.isAlpha

/-- Later characters of rule `id`: `[_a-zA-Z0-9]`. -/
def isIdChar (c : Char) : Bool := c = '_' || c.isAlpha || c.isDigit

/-- Parse tree of rule `emmy_type`; `table`, `array` and `func_return` use
`type_id` children, whose matched text is all the visitor consumes, so the
text is stored directly. -/
inductive EType where
  | funcT (args : List (String × EType)) (ret : Option String)
  | tableT (key value : String)
  | arrayT (elt : String)
  | idT (text : String)

/-- Parse tree of rule `emmy_type_or` (one alternative plus the `"|" ...`
repetitions, in declaration order). -/
structure ETypeOr where
  alts : List EType

/-- Parse tree of rule `emmy_type_desc`: the comma-separated `emmy_type_or`
nodes followed by the `desc` text (the regex `.*`, possibly empty). -/
structure ETypeDesc where
  ors : List ETypeOr
  descText : String

/-- Rule `s = " "*`. -/
def pSpaces (cs : List Char) : List Char := cs.dropWhile (· = ' ')

/-- A literal token. -/
def pLit (lit : List Char) (cs : List Char) : Option (List Char) :=
  if lit.isPrefixOf cs then some (cs.drop lit.length) else none

/-- Rule `id`. -/
def pId (cs : List Char) : Option (String × List Char) :=
  match cs with
  | [] => none
  | c :: rest =>
      if isIdFirst c then
        let tail := rest.takeWhile isIdChar
        some (⟨c :: tail⟩, rest.drop tail.length)
      else none

/-- The `("." id)*` repetition of rule `type_id`; a failed iteration is
backtracked. -/
def pDotIds : Nat → String → List Char → String × List Char
  | 0, acc, cs => (acc, cs)
  | fuel + 1, acc, cs =>
      match cs with
      | '.' :: cs₁ =>
          match pId cs₁ with
          | some (i, cs₂) => pDotIds fuel (acc ++ "." ++ i) cs₂
          | none => (acc, cs)
      | _ => (acc, cs)

/-- Rule `type_id = id ("." id)*`, returning the matched text. -/
def pTypeId (cs : List Char) : Option (String × List Char) :=
  match pId cs with
  | some (i, cs₁) => some (pDotIds cs₁.length i cs₁)
  | none => none

/-- Rule `array = type_id s "[]"`. -/
def pArray (cs : List Char) : Option (String × List Char) := do
  let (t, cs) ← pTypeId cs
  let cs := pSpaces cs
  let cs ← pLit ['[', ']'] cs
  pure (t, cs)

/-- Rule `table = "table" s "<" s type_id s "," s type_id s ">" s`. -/
def pTable (cs : List Char) : Option ((String × String) × List Char) := do
  let cs ← pLit "table".data cs
  let cs := pSpaces cs
  let cs ← pLit ['<'] cs
  let cs := pSpaces cs
  let (k, cs) ← pTypeId cs
  let cs := pSpaces cs
  let cs ← pLit [','] cs
  let cs := pSpaces cs
  let (v, cs) ← pTypeId cs
  let cs := pSpaces cs
  let cs ← pLit ['>'] cs
  let cs := pSpaces cs
  pure ((k, v), cs)

/-- Rule `func_return = ":" s type_id`. -/
def pFuncRet (cs : List Char) : Option (String × List Char) := do
  let cs ← pLit [':'] cs
  let cs := pSpaces cs
  pTypeId cs

mutual

/-- Rule `emmy_type = func / table / array / type_id` (ordered choice). -/
def pEmmyType : Nat → List Char → Option (EType × List Char)
  | 0, _ => none
  | fuel + 1, cs =>
      match pFunc fuel cs with
      | some ((args, ret), cs') => some (.funcT args ret, cs')
      | none =>
          match pTable cs with
          | some ((k, v), cs') => some (.tableT k v, cs')
          | none =>
              match pArray cs with
              | some (t, cs') => some (.arrayT t, cs')
              | none =>
                  match pTypeId cs with
                  | some (t, cs') => some (.idT t, cs')
                  | none => none

/-- Rule `func = "fun" "(" s func_args? s ")" s func_return?`.  Returns the
argument list ([] exactly when the optional `func_args` node is absent, since
`func_args` cannot match the empty string) and the optional return type. -/
def pFunc : Nat → List Char →
    Option ((List (String × EType) × Option String) × List Char)
  | 0, _ => none
  | fuel + 1, cs => do
      let cs ← pLit "fun".data cs
      let cs ← pLit ['('] cs
      let cs := pSpaces cs
      let (args, cs) :=
        match pFuncArgs fuel cs with
        | some (as, cs') => (as, cs')
        | none => ([], cs)
      let cs := pSpaces cs
      let cs ← pLit [')'] cs
      let cs := pSpaces cs
      let (ret, cs) :=
        match pFuncRet cs with
        | some (r, cs') => (some r, cs')
        | none => (none, cs)
      pure ((args, ret), cs)

/-- Rule `func_args = func_arg (s "," s func_arg s)*`. -/
def pFuncArgs : Nat → List Char → Option (List (String × EType) × List Char)
  | 0, _ => none
  | fuel + 1, cs => do
      let (a, cs) ← pFuncArg fuel cs
      pure (pFuncArgsRest fuel [a] cs)

/-- The `(s "," s func_arg s)*` repetition; a failed iteration is
backtracked. -/
def pFuncArgsRest : Nat → List (String × EType) → List Char →
    List (String × EType) × List Char
  | 0, acc, cs => (acc, cs)
  | fuel + 1, acc, cs =>
      let step : Option (List (String × EType) × List Char) := do
        let cs₁ := pSpaces cs
        let cs₂ ← pLit [','] cs₁
        let cs₃ := pSpaces cs₂
        let (a, cs₄) ← pFuncArg fuel cs₃
        let cs₅ := pSpaces cs₄
        pure (acc ++ [a], cs₅)
      match step with
      | some (acc', cs') => pFuncArgsRest fuel acc' cs'
      | none => (acc, cs)

/-- Rule `func_arg = func_arg_name s ":" s emmy_type` with
`func_arg_name = id s`. -/
def pFuncArg : Nat → List Char → Option ((String × EType) × List Char)
  | 0, _ => none
  | fuel + 1, cs => do
      let (n, cs) ← pId cs
      let cs := pSpaces cs
      let cs := pSpaces cs
      let cs ← pLit [':'] cs
      let cs := pSpaces cs
      let (t, cs) ← pEmmyType fuel cs
      pure ((n, t), cs)

end

/-- The `("|" s emmy_type s)*` repetition of rule `emmy_type_or`. -/
def pTypeOrRest : Nat → List EType → List Char → List EType × List Char
  | 0, acc, cs => (acc, cs)
  | fuel + 1, acc, cs =>
      let step : Option (List EType × List Char) := do
        let cs₁ ← pLit ['|'] cs
        let cs₂ := pSpaces cs₁
        let (t, cs₃) ← pEmmyType fuel cs₂
        let cs₄ := pSpaces cs₃
        pure (acc ++ [t], cs₄)
      match step with
      | some (acc', cs') => pTypeOrRest fuel acc' cs'
      | none => (acc, cs)

/-- Rule `emmy_type_or = emmy_type s ("|" s emmy_type s)*`. -/
def pTypeOr (fuel : Nat) (cs : List Char) : Option (ETypeOr × List Char) := do
  let (t, cs) ← pEmmyType fuel cs
  let cs := pSpaces cs
  let (ts, cs) := pTypeOrRest fuel [t] cs
  pure (⟨ts⟩, cs)

/-- The `(s "," s emmy_type_or)*` repetition of rule `emmy_type_desc`. -/
def pTypeDescRest : Nat → List ETypeOr → List Char → List ETypeOr × List Char
  | 0, acc, cs => (acc, cs)
  | fuel + 1, acc, cs =>
      let step : Option (List ETypeOr × List Char) := do
        let cs₁ := pSpaces cs
        let cs₂ ← pLit [','] cs₁
        let cs₃ := pSpaces cs₂
        let (o, cs₄) ← pTypeOr fuel cs₃
        pure (acc ++ [o], cs₄)
      match step with
      | some (acc', cs') => pTypeDescRest fuel acc' cs'
      | none => (acc, cs)

/-- Rule `emmy_type_desc = emmy_type_or (s "," s emmy_type_or)* desc?` where
`desc = ~".*"` greedily matches the rest of the line.  Mirrors
Grammar.parse: the whole input must be consumed (an unconsumed newline makes
the parse fail, as `.` does not match a newline). -/
def parseEmmy (input : String) : Option ETypeDesc := do
  let cs := input.data
  let fuel := cs.length + 16
  let (o, cs) ← pTypeOr fuel cs
  let (os, cs) := pTypeDescRest fuel [o] cs
  let dChars := cs.takeWhile (· ≠ '\n')
  let rest := cs.drop dChars.length
  if rest.isEmpty then pure ⟨os, ⟨dChars⟩⟩ else none

/- ------------------------------------------------------------------ -/
/- EmmyLuaParser: the NodeVisitor over the parse tree (emmylua.py).    -/
/- ------------------------------------------------------------------ -/

/-- The mutable fields of EmmyLuaParser that its visit methods touch.  The
stack `types` keeps Python list order (append and pop at the end);
`funcParams` and `funcReturns` are the single shared `_func_params` /
`_func_returns` lists; `argCountStack` is `_func_arg_count_stack`, which the
source updates but never reads. -/
structure EmmyVS where
  types : List LuaType := []
  funcParams : List LuaType := []
  funcReturns : List LuaType := []
  argCountStack : List Nat := [0]
  desc : String := ""

mutual

/-- Post-order visit of one `emmy_type` subtree, firing the same stack
operations as EmmyLuaParser's visit methods (visit_type_id, visit_array,
visit_table, visit_func_arg, visit_func_args, visit_func_return,
visit_func). -/
def visitEType : EType → EmmyVS → Option EmmyVS
  | .idT t, vs => some { vs with types := vs.types ++ [parse_type t] }
  | .arrayT t, vs =>
      let vs := { vs with types := vs.types ++ [parse_type t] }
      match pyPop vs.types with
      | none => none
      | some (ts, x) => some { vs with types := ts ++ [.array x] }
  | .tableT k v, vs =>
      let vs := { vs with types := vs.types ++ [parse_type k, parse_type v] }
      match pyPop vs.types with
      | none => none
      | some (ts₁, lastT) =>
          match pyPop ts₁ with
          | none => none
          | some (ts₂, penuT) => some { vs with types := ts₂ ++ [.dict penuT lastT] }
  | .funcT args ret, vs => do
      let vs ← visitEArgs args vs
      let vs := if args.isEmpty then vs
        else { vs with argCountStack := vs.argCountStack ++ [0] }
      let vs ←
        match ret with
        | none => pure vs
        | some r =>
            let vs := { vs with types := vs.types ++ [parse_type r] }
            match pyPop vs.types with
            | none => none
            | some (ts, x) =>
                pure { vs with types := ts, funcReturns := vs.funcReturns ++ [x] }
      some { vs with
        types := vs.types ++ [.callable vs.funcParams none vs.funcReturns],
        funcParams := [], funcReturns := [] }

/-- Visits of the `func_arg` children in order; visit_func_arg bumps the
count and moves the top of the type stack into the shared params list. -/
def visitEArgs : List (String × EType) → EmmyVS → Option EmmyVS
  | [], vs => some vs
  | (_, t) :: rest, vs => do
      let vs ← visitEType t vs
      let cnt ← pyIncLast vs.argCountStack
      match pyPop vs.types with
      | none => none
      | some (ts, x) =>
          visitEArgs rest
            { vs with types := ts, funcParams := vs.funcParams ++ [x],
                      argCountStack := cnt }

end

/-- Visit of one `emmy_type_or` node: the alternatives' events, then
visit_emmy_type_or, which wraps the whole stack in an `Or` whenever it holds
more than one entry. -/
def visitTypeOr (o : ETypeOr) (vs : EmmyVS) : Option EmmyVS := do
  let vs ← o.alts.foldlM (fun vs t => visitEType t vs) vs
  if vs.types.length > 1 then pure { vs with types := [.or vs.types] }
  else pure vs

/-- Visit of the whole `emmy_type_desc` tree; visit_desc stores the desc
node's text last. -/
def visitTypeDesc (td : ETypeDesc) (vs : EmmyVS) : Option EmmyVS := do
  let vs ← td.ors.foldlM (fun vs o => visitTypeOr o vs) vs
  pure { vs with desc := td.descText }

/-- Embeds `parse_param_field` (emmylua.py): run the grammar, run the
visitor, and return `(parser.types[0], parser.desc)`.  A grammar failure, a
stack underflow or an empty final stack is a Python exception, modelled as
none. -/
def parse_param_field (input : String) : Option (LuaType × String) := do
  let td ← parseEmmy input
  let vs ← visitTypeDesc td {}
  match vs.types with
  | t :: _ => some (t, vs.desc)
  | [] => none

/- ------------------------------------------------------------------ -/
/- The luaparser syntax tree, reduced to the node shapes the parser    -/
/- code inspects.  Node bodies are not modelled (no claim depends on   -/
/- statements nested inside bodies).                                   -/
/- ------------------------------------------------------------------ -/

/-- One assignment target: a Name node or anything else. -/
inductive TargetNode where
  | nameT (id : String)
  | otherT

/-- One half of an Index node (idx may be a Name or a String node). -/
inductive IndexPart where
  | nameP (id : String)
  | strP (s : String)
  | otherP

/-- The `name` attribute of a Function node: a plain Name or an Index
(`foo.bar`). -/
inductive FuncName where
  | nameF (id : String)
  | indexF (idx value : IndexPart)

/-- One code parameter: a Name node or the Varargs marker. -/
inductive AstArg where
  | argName (id : String)
  | varargsA

/-- Syntax node kinds that carry comment blocks.  LocalFunction is an
instance of Function and LocalAssign of Assign; Method is not a Function
instance. -/
inductive AstNode where
  | chunk
  | assignN (targets : List TargetNode) (value : Option PyVal)
  | localAssignN (targets : List TargetNode) (value : Option PyVal)
  | functionN (name : FuncName) (args : List AstArg)
  | localFunctionN (name : String) (args : List AstArg)
  | methodN (source : String) (name : String) (args : List AstArg)
  | callN
  | fieldAstN

/-- `isinstance(node, Function)` (LocalFunction included). -/
def isFunctionInstance : AstNode → Bool
  | .functionN _ _ => true
  | .localFunctionN _ _ => true
  | _ => false

/-- Exact `type(node) == Function`. -/
def isExactFunction : AstNode → Bool
  | .functionN _ _ => true
  | _ => false

/-- Exact `type(node) == Method`. -/
def isExactMethod : AstNode → Bool
  | .methodN _ _ _ => true
  | _ => false

/-- The `name` attribute of a node (none models Python AttributeError). -/
def astNameAttr : AstNode → Option FuncName
  | .functionN n _ => some n
  | .localFunctionN n _ => some (.nameF n)
  | .methodN _ n _ => some (.nameF n)
  | _ => none

/-- The `args` attribute of `isinstance(node, Function)` nodes, as used by
TreeVisitor._check_function_args. -/
def astFunctionArgs : AstNode → Option (List AstArg)
  | .functionN _ as => some as
  | .localFunctionN _ as => some as
  | _ => none

/-- Embeds `read_index` (parser.py): the idx and value parts of an Index as
strings, "" for unhandled node kinds. -/
def read_index (idx value : IndexPart) : String × String :=
  let i := match idx with
    | .nameP s => s
    | .strP s => s
    | .otherP => ""
  let v := match value with
    | .nameP s => s
    | _ => ""
  (i, v)

/-- Embeds astutils.get_identifier: the depth-first traversal keeps the last
Name (or String index) it visits.  Over the body-free nodes modelled here a
Function node yields the last Name among its code parameters, a Method its
last parameter name (falling back to the receiver), a LocalFunction its
declared name, and an assignment the last Name among its targets. -/
def get_identifier : AstNode → String
  | .chunk => ""
  | .assignN ts _ =>
      ts.foldl (fun acc t => match t with | .nameT s => s | .otherT => acc) ""
  | .localAssignN ts _ =>
      ts.foldl (fun acc t => match t with | .nameT s => s | .otherT => acc) ""
  | .functionN _ args =>
      args.foldl (fun acc a => match a with | .argName s => s | _ => acc) ""
  | .localFunctionN n _ => n
  | .methodN src _ args =>
      args.foldl (fun acc a => match a with | .argName s => s | _ => acc) src
  | .callN => ""
  | .fieldAstN => ""

/-- Embeds astutils.get_value: the literal found under an assignment's value
list; Python None for everything else. -/
def get_value : AstNode → Option PyVal
  | .assignN _ v => v
  | .localAssignN _ v => v
  | _ => none

/-- Embeds get_lua_function_name (parser.py). -/
def get_lua_function_name : AstNode → String
  | .functionN (.indexF ip vp) _ => (read_index ip vp).1
  | .functionN (.nameF id) _ => id
  | .localFunctionN id _ => id
  | _ => "unknown"

/- ------------------------------------------------------------------ -/
/- DocOptions and the TreeVisitor (Model Assembler).                   -/
/- ------------------------------------------------------------------ -/

/-- Embeds DocOptions (parser.py).  `comment_start` is the source option
comment_prefix (default "---"); `private_marker` is the source option
private_prefix (default "_"): functions whose resolved name starts with it
are forced private. -/
structure DocOptions where
  comment_start : String := "---"
  emmy_lua_syntax : Bool := true
  private_marker : String := "_"

/-- The TreeVisitor state: the class lookup table (a Python dict, modelled
as an insertion-ordered association list with unique keys), the flat pending
function list, the module singleton, and the logged diagnostics. -/
structure VState where
  class_map : List (String × LuaClass) := []
  function_list : List LuaFunction := []
  module : Option LuaModule := none
  errors : List String := []

/-- Python `key in dict`. -/
def dictHasKey {α : Type} (m : List (String × α)) (k : String) : Bool :=
  m.any (fun p => p.1 == k)

/-- Python `dict[key]` (none models KeyError). -/
def dictGet {α : Type} (m : List (String × α)) (k : String) : Option α :=
  (m.find? (fun p => p.1 == k)).map (·.2)

/-- Python `dict[key] = v`: replace in place when the key exists, append
otherwise. -/
def dictSet {α : Type} (m : List (String × α)) (k : String) (v : α) :
    List (String × α) :=
  if dictHasKey m k then m.map (fun p => if p.1 == k then (k, v) else p)
  else m ++ [(k, v)]

/-- Python `dict.values()`. -/
def dictValues {α : Type} (m : List (String × α)) : List α := m.map (·.2)

/-- `self._class_map[k].methods.append(f)`: mutate the class stored under an
existing key. -/
def classMapAppendMethod (m : List (String × LuaClass)) (k : String)
    (f : LuaFunction) : List (String × LuaClass) :=
  m.map (fun p =>
    if p.1 == k then (p.1, { p.2 with methods := p.2.methods ++ [f] }) else p)

/-- Embeds TreeVisitor._auto_private. -/
def auto_private (opts : DocOptions) (f : LuaFunction) : LuaFunction :=
  if pyStartsWith f.name opts.private_marker then { f with visibility := .priv }
  else f

/-- Embeds TreeVisitor._check_function_args, returning the logged
diagnostics.  The check fires only for `isinstance(node, Function)` nodes;
it reports when more params are documented than declared, then zips the
documented params with the code parameters (truncating at the shorter list)
and reports every non-varargs position whose names differ. -/
def check_function_args (f : LuaFunction) (ast : AstNode) : List String :=
  match astFunctionArgs ast with
  | none => []
  | some args =>
      (if args.length < f.params.length then
        ["function: \"" ++ f.name ++ "\": too many documented params: " ++
          pyJoin ", " ((f.params.drop args.length).map (·.name))]
      else []) ++
      ((f.params.zip args).filterMap (fun pa =>
        match pa.2 with
        | .varargsA => none
        | .argName id =>
            if pa.1.name ≠ id then
              some ("function: \"" ++ f.name ++ "\": doc param found \"" ++
                pa.1.name ++ "\", expected \"" ++ id ++ "\"")
            else none))

/-- Embeds TreeVisitor._add_class.  The source resolves the name in source
from a single-Name assignment target, falls back to the declared name, then
tests membership under the declared name while storing and fetching under
the resolved source name; the merge lookup can therefore miss, which is a
Python KeyError. -/
def add_class (st : VState) (c : LuaClass) (ast : AstNode) :
    Except String VState :=
  let c := match ast with
    | .assignN [t] _ | .localAssignN [t] _ =>
        (match t with
         | .nameT id => { c with name_in_source := id }
         | .otherT => c)
    | _ => c
  let c := if c.name_in_source = "" then { c with name_in_source := c.name }
    else c
  if dictHasKey st.class_map c.name then
    match dictGet st.class_map c.name_in_source with
    | none => .error "KeyError"
    | some cls =>
        let merged := { cls with methods := cls.methods ++ c.methods,
                                 fields := cls.fields ++ c.fields }
        .ok { st with class_map := dictSet st.class_map c.name_in_source merged }
  else
    .ok { st with class_map := dictSet st.class_map c.name_in_source c }

/-- The owner/member split of the Function-with-Index branch of
_add_function: `ldoc_node.name = func_name; ldoc_node.is_static = True`.
Every other node kind leaves the fragment unchanged. -/
def staticRename (f : LuaFunction) : AstNode → LuaFunction
  | .functionN (.indexF ip vp) _ =>
      { f with name := (read_index ip vp).1, is_static := true }
  | _ => f

/-- The routing of _add_function: where the (already finalized) fragment
object is appended.  A Method node goes to its receiver's class when that
class is known, else to the flat pending function list; a Function node with
a dotted name goes to the owner class when known, else to the module's
function list when a non-classmod module exists, else nowhere; a Function
node with a plain Name (and a LocalFunction) reaches no append at all; every
other node kind goes to the flat pending function list. -/
def place (st : VState) (fr : LuaFunction) : AstNode → VState
  | .methodN src _ _ =>
      if dictHasKey st.class_map src then
        { st with class_map := classMapAppendMethod st.class_map src fr }
      else { st with function_list := st.function_list ++ [fr] }
  | .functionN (.indexF ip vp) _ =>
      if dictHasKey st.class_map (read_index ip vp).2 then
        { st with class_map :=
          classMapAppendMethod st.class_map (read_index ip vp).2 fr }
      else
        match st.module with
        | some m =>
            if m.is_class_mod then st
            else
              { st with module := some { m with functions := m.functions ++ [fr] } }
        | none => st
  | .functionN (.nameF _) _ => st
  | .localFunctionN _ _ => st
  | _ => { st with function_list := st.function_list ++ [fr] }

/-- Embeds TreeVisitor._add_function: deduce an empty doc name from the
node's Name (reading `ast_node.name` raises AttributeError on nodes without
one), log the consistency check, rename/flag the dotted static case, route
the fragment (place), and run _auto_private last.  The source appends the
fragment object and then mutates it in place through the same reference, so
the embedding applies the final mutations before insertion and also returns
the fragment's final state. -/
def add_function (opts : DocOptions) (st : VState) (f : LuaFunction)
    (ast : AstNode) : Except String (VState × LuaFunction) :=
  match (if f.name = "" then
      match astNameAttr ast with
      | none => .error "AttributeError: name"
      | some (.nameF id) => .ok (if id ≠ "" then { f with name := id } else f)
      | some (.indexF _ _) => .ok f
    else .ok f : Except String LuaFunction) with
  | .error e => .error e
  | .ok f =>
    let st := { st with errors := st.errors ++ check_function_args f ast }
    let fr := auto_private opts (staticRename f ast)
    .ok (place st fr ast, fr)

/-- Embeds TreeVisitor._add_module (_check_usage_field only logs a warning
and has no effect on the model). -/
def add_module (st : VState) (m : LuaModule) : Except String VState :=
  match st.module with
  | none => .ok { st with module := some m }
  | some _ => .error "only one @module is allowed by file"

/-- Embeds TreeVisitor._add_dict / _add_data: append to the module's data
list when a module exists. -/
def add_data (st : VState) (d : LuaData) : VState :=
  match st.module with
  | some m => { st with module := some { m with data := m.data ++ [d] } }
  | none => st

/-- Embeds the routing of one fragment through TreeVisitor._type_handler
(_process_ldoc); LuaClassField has no handler entry and is ignored. -/
def dispatch_fragment (opts : DocOptions) (st : VState) (n : LuaNode)
    (ast : AstNode) : Except String VState :=
  match n with
  | .classNode c => add_class st c ast
  | .functionNode f => (add_function opts st f ast).map (·.1)
  | .moduleNode m => add_module st m
  | .dataNode d => .ok (add_data st d)
  | .fieldNode _ => .ok st

/-- Routing of a unit's fragment stream in order; an uncaught exception
aborts the walk of that unit. -/
def process_fragments (opts : DocOptions) (st : VState)
    (l : List (LuaNode × AstNode)) : Except String VState :=
  l.foldlM (fun st p => dispatch_fragment opts st p.1 p.2) st

/-- Embeds TreeVisitor.get_model: fall back to LuaModule('unknown'), record
the file path, and for a class-flavored module require exactly one collected
class, renaming it to the module's name and handing it the module's desc and
usage; otherwise fold the class table into the module.  The pending function
list is appended in both cases. -/
def get_model (st : VState) (file_path : String) : Except String LuaModule :=
  let m := match st.module with
    | some m => m
    | none => { name := "unknown" : LuaModule }
  let m := { m with file_path := file_path }
  if m.is_class_mod then
    match st.class_map with
    | [(_, c)] =>
        let c := { c with name := m.name, desc := m.desc, usage := m.usage }
        .ok { m with classes := m.classes ++ [c],
                     functions := m.functions ++ st.function_list }
    | _ => .error "in a @classmod, only one class is allowed"
  else
    .ok { m with classes := m.classes ++ dictValues st.class_map,
                 functions := m.functions ++ st.function_list }

/-- One source unit at fragment granularity: the tree walk routes the
fragment stream, then get_model produces the module (DocParser.
build_module_doc_model). -/
def process_unit (opts : DocOptions) (frags : List (LuaNode × AstNode))
    (fp : String) : Except String LuaModule := do
  let st ← process_fragments opts {} frags
  get_model st fp

/-- Embeds FilesProcessor.run's result collection: a unit whose future
raises is logged and skipped, every other unit still contributes its
module. -/
def run_batch (results : List (Except String LuaModule)) : List LuaModule :=
  results.foldl (fun acc r =>
    match r with
    | .ok m => acc ++ [m]
    | .error _ => acc) []

/-- Whether a fragment is a Module fragment. -/
def isModuleFrag : LuaNode → Bool
  | .moduleNode _ => true
  | _ => false

/- ------------------------------------------------------------------ -/
/- LuaDocParser: tag dispatcher, pending-state accumulator and block   -/
/- resolver (parser.py).  Fragments under construction live in         -/
/- per-kind arenas and are referenced by index, because the Python     -/
/- code mutates the same object through the pending lists, the         -/
/- returned doc-node list and a class's method list at once.           -/
/- ------------------------------------------------------------------ -/

/-- A class fragment under construction: same fields as LuaClass but with
method references into the function arena (an @function tag puts the same
function object inside the returned class and the pending list). -/
structure ClassRec where
  name : String := "unknown"
  name_in_source : String := ""
  methods : List Nat := []
  short_desc : String := ""
  desc : String := ""
  usage : String := ""
  inherits_from : List String := []
  fields : List LuaClassField := []

/-- One entry of the doc-node list built while dispatching a block: a
reference into an arena, or a class field (which Python also returns even
when no class is pending). -/
inductive DocEntry where
  | funcRef (i : Nat)
  | classRef (i : Nat)
  | moduleRef (i : Nat)
  | dataRef (i : Nat)
  | fieldEntry (f : LuaClassField)

/-- The LuaDocParser instance state.  The thirteen pending fields are the
ones re-initialised at the top of parse_comments; `name_space` is the
`_namespace` field (set by @namespace, absent from that reset); `errors`
records report_error calls; the four arenas model the Python heap. -/
structure PState where
  pending_str : List String := []
  pending_param : List LuaParam := []
  pending_return : List LuaReturn := []
  pending_function : List Nat := []
  pending_qualifiers : List LuaQualifier := []
  pending_class : List Nat := []
  pending_module : List Nat := []
  pending_overload : List LuaType := []
  pending_data : List Nat := []
  usage_in_progress : Bool := false
  usage_str : List String := []
  exported : Bool := false
  constant : Bool := false
  name_space : String := ""
  errors : List String := []
  funcs : List LuaFunction := []
  classes : List ClassRec := []
  modules : List LuaModule := []
  datas : List LuaData := []

/-- Fallback for arena lookups (indices are valid by construction). -/
def dfltFunc : LuaFunction := { name := "" }

/-- Fallback class record. -/
def dfltClassRec : ClassRec := {}

/-- Fallback module. -/
def dfltModule : LuaModule := { name := "" }

/-- Fallback data. -/
def dfltData : LuaData := .base { name := "" }

/-- Allocate a function object. -/
def PState.pushFunc (st : PState) (f : LuaFunction) : PState × Nat :=
  ({ st with funcs := st.funcs ++ [f] }, st.funcs.length)

/-- Allocate a class object. -/
def PState.pushClass (st : PState) (c : ClassRec) : PState × Nat :=
  ({ st with classes := st.classes ++ [c] }, st.classes.length)

/-- Allocate a module object. -/
def PState.pushModule (st : PState) (m : LuaModule) : PState × Nat :=
  ({ st with modules := st.modules ++ [m] }, st.modules.length)

/-- Allocate a data object. -/
def PState.pushData (st : PState) (d : LuaData) : PState × Nat :=
  ({ st with datas := st.datas ++ [d] }, st.datas.length)

/-- Mutate a function object in place. -/
def PState.modifyFunc (st : PState) (i : Nat) (g : LuaFunction → LuaFunction) :
    PState :=
  { st with funcs := listModify st.funcs i g }

/-- Mutate a class object in place. -/
def PState.modifyClass (st : PState) (i : Nat) (g : ClassRec → ClassRec) :
    PState :=
  { st with classes := listModify st.classes i g }

/-- Mutate a module object in place. -/
def PState.modifyModule (st : PState) (i : Nat) (g : LuaModule → LuaModule) :
    PState :=
  { st with modules := listModify st.modules i g }

/-- Mutate a data object in place. -/
def PState.modifyData (st : PState) (i : Nat) (g : LuaData → LuaData) :
    PState :=
  { st with datas := listModify st.datas i g }

/-- Shared-core update for the three LuaData variants. -/
def dataModifyCore (g : DataCore → DataCore) : LuaData → LuaData
  | .base c => .base (g c)
  | .dictData c fs => .dictData (g c) fs
  | .value c t v => .value (g c) t v

/-- report_error: the source logs file path and line; the message is what
the model keeps. -/
def pReport (st : PState) (msg : String) : PState :=
  { st with errors := st.errors ++ [msg] }

/-- Embeds _get_short_desc_and_desc: pop the first pending line as the
short description, join the rest as the long one. -/
def get_sd (st : PState) : (String × String) × PState :=
  match st.pending_str with
  | [] => (("", ""), st)
  | x :: rest => ((x, pyJoinNl rest), { st with pending_str := rest })

/-- Embeds the state reset at the top of parse_comments: exactly the
thirteen listed fields are re-initialised; `name_space` is not among
them. -/
def reset_pending (st : PState) : PState :=
  { st with pending_str := [], pending_param := [], pending_function := [],
            pending_return := [], pending_qualifiers := [], pending_class := [],
            pending_module := [], usage_in_progress := false, usage_str := [],
            pending_overload := [], pending_data := [], exported := false,
            constant := false }

/-- Append a param to the pending function if one is open, else queue it
(the shared tail of the @param/@tparam/@vararg handlers). -/
def attachParam (st : PState) (p : LuaParam) : PState :=
  match st.pending_function.getLast? with
  | some i => st.modifyFunc i (fun f => { f with params := f.params ++ [p] })
  | none => { st with pending_param := st.pending_param ++ [p] }

/-- Append a return to the pending function if one is open, else queue it. -/
def attachReturn (st : PState) (r : LuaReturn) : PState :=
  match st.pending_function.getLast? with
  | some i => st.modifyFunc i (fun f => { f with returns := f.returns ++ [r] })
  | none => { st with pending_return := st.pending_return ++ [r] }

/-- Characters of the regex class `[\w.]` (ASCII view of Python `\w`). -/
def isWordChar (c : Char) : Bool := c.isAlpha || c.isDigit || c = '_'

/-- `[\w.]`. -/
def isWordDotChar (c : Char) : Bool := isWordChar c || c = '.'

/-- The `(?:\s*,\s*[\w.]+)*` repetition inside DOC_CLASS_RE group 2; the
accumulated text reproduces the exact span the capture covers (separators
included). -/
def pClassBasesRest : Nat → List Char → List Char → List Char × List Char
  | 0, acc, cs => (acc, cs)
  | fuel + 1, acc, cs =>
      let ws₁ := cs.takeWhile Char.isWhitespace
      let r₁ := cs.drop ws₁.length
      match r₁ with
      | ',' :: r₂ =>
          let ws₂ := r₂.takeWhile Char.isWhitespace
          let r₃ := r₂.drop ws₂.length
          let id₁ := r₃.takeWhile isWordDotChar
          if id₁.isEmpty then (acc, cs)
          else pClassBasesRest fuel (acc ++ ws₁ ++ [','] ++ ws₂ ++ id₁)
            (r₃.drop id₁.length)
      | _ => (acc, cs)

/-- Embeds DOC_CLASS_RE
`^([\w.]+)(?:\s*:\s*([\w.]+(?:\s*,\s*[\w.]+)*))?\s*@?(.*)$`: the declared
name, the optional raw base-class text, and the trailing description. -/
def matchDocClass (s : String) : Option (String × Option String × String) :=
  let cs := s.data
  let g1 := cs.takeWhile isWordDotChar
  if g1.isEmpty then none
  else
    let rest := cs.drop g1.length
    let (g2, rest) :=
      let r₁ := rest.dropWhile Char.isWhitespace
      match r₁ with
      | ':' :: r₂ =>
          let r₃ := r₂.dropWhile Char.isWhitespace
          let id₁ := r₃.takeWhile isWordDotChar
          if id₁.isEmpty then ((none : Option String), rest)
          else
            let (g2cs, r₄) := pClassBasesRest r₃.length id₁ (r₃.drop id₁.length)
            (some (⟨g2cs⟩ : String), r₄)
      | _ => ((none : Option String), rest)
    let rest₂ := rest.dropWhile Char.isWhitespace
    let rest₃ := match rest₂ with
      | '@' :: r => r
      | _ => rest₂
    some (⟨g1⟩, g2, ⟨rest₃⟩)

/-- Embeds FUNCTION_RE `^(\w+(:|.)\w+)` (the dot is unescaped, so the middle
character may be anything but a newline).  With greedy backtracking the
match is: the leading word run, one arbitrary character and the following
word run when that run is nonempty; otherwise the leading word run itself
when it has at least three characters. -/
def matchFunctionRe (s : String) : Option String :=
  let cs := s.data
  let w := cs.takeWhile isWordChar
  if w.isEmpty then none
  else
    match cs.drop w.length with
    | [] => if 3 ≤ w.length then some ⟨w⟩ else none
    | c :: rest =>
        if c = '\n' then (if 3 ≤ w.length then some ⟨w⟩ else none)
        else
          let r := rest.takeWhile isWordChar
          if r.isEmpty then (if 3 ≤ w.length then some ⟨w⟩ else none)
          else some ⟨w ++ [c] ++ r⟩

/-- Python `re.split('[:.]', name)`. -/
def splitOnColonDot (s : String) : List String :=
  (charSplit (fun c => c = ':' || c = '.') s.data).map (fun cs => ⟨cs⟩)

/-- Embeds the `^@tparam\[opt(?:\s*=\s*([^\].]*))?\]` regex of the secondary
handler table, applied to the tag word.  Returns `str(match.group(1))`: the
captured default text, or the string "None" when the group is absent. -/
def matchTparamOpt (tag : String) : Option String :=
  let cs := tag.data
  let pfx := "@tparam[opt".data
  if pfx.isPrefixOf cs then
    let rest := cs.drop pfx.length
    let attempt : Option String :=
      match rest.dropWhile Char.isWhitespace with
      | '=' :: r₂ =>
          let r₃ := r₂.dropWhile Char.isWhitespace
          let cap := r₃.takeWhile (fun c => !(c == ']' || c == '.'))
          match r₃.drop cap.length with
          | ']' :: _ => some ⟨cap⟩
          | _ => none
      | _ => none
    match attempt with
    | some v => some v
    | none =>
        match rest with
        | ']' :: _ => some "None"
        | _ => none
  else none

/-- Embeds _parse_visibility (ValueError modelled as none). -/
def parse_visibility_str (s : String) : Option LuaVisibility :=
  if s = "public" then some .pub
  else if s = "protected" then some .prot
  else if s = "private" then some .priv
  else none

/- ----------------------------- tag handlers ----------------------- -/

/-- Embeds _parse_abstract. -/
def parse_abstract (st : PState) : PState :=
  match st.pending_function.getLast? with
  | some i => st.modifyFunc i (fun f => { f with is_abstract := true })
  | none => { st with pending_qualifiers := st.pending_qualifiers ++ [.abstractQ] }

/-- Embeds _parse_virtual. -/
def parse_virtual (st : PState) : PState :=
  match st.pending_function.getLast? with
  | some i => st.modifyFunc i (fun f => { f with is_virtual := true })
  | none => { st with pending_qualifiers := st.pending_qualifiers ++ [.virtualQ] }

/-- Embeds _parse_deprecated. -/
def parse_deprecated (st : PState) : PState :=
  match st.pending_function.getLast? with
  | some i => st.modifyFunc i (fun f => { f with is_deprecated := true })
  | none =>
      { st with pending_qualifiers := st.pending_qualifiers ++ [.deprecatedQ] }

/-- Embeds _parse_private. -/
def parse_private (st : PState) : PState :=
  match st.pending_function.getLast? with
  | some i => st.modifyFunc i (fun f => { f with visibility := .priv })
  | none => { st with pending_qualifiers := st.pending_qualifiers ++ [.privateQ] }

/-- Embeds _parse_protected. -/
def parse_protected (st : PState) : PState :=
  match st.pending_function.getLast? with
  | some i => st.modifyFunc i (fun f => { f with visibility := .prot })
  | none =>
      { st with pending_qualifiers := st.pending_qualifiers ++ [.protectedQ] }

/-- Embeds _parse_class: on a DOC_CLASS_RE match, open a pending class with
the declared name also used as name in source and the comma-split,
whitespace-stripped base list (the regex desc group is discarded by the
handler). -/
def parse_class (params : String) (st : PState) : PState × Option DocEntry :=
  match matchDocClass params with
  | some (mainName, rawBases, _descG) =>
      let bases := match rawBases with
        | some rb => ((pySplitChar rb ',').map pyStrip)
        | none => []
      let c : ClassRec :=
        { name := mainName, name_in_source := mainName, inherits_from := bases }
      let (st, i) := st.pushClass c
      ({ st with pending_class := st.pending_class ++ [i] }, some (.classRef i))
  | none => (pReport st ("invalid @class tag: @class " ++ params), none)

/-- Embeds _parse_usage: switch into verbatim capture. -/
def parse_usage (st : PState) : PState :=
  { st with usage_in_progress := true }

/-- Embeds _parse_module. -/
def parse_module (params : String) (st : PState) : PState × Option DocEntry :=
  let (st, i) := st.pushModule { name := params }
  ({ st with pending_module := st.pending_module ++ [i] }, some (.moduleRef i))

/-- Embeds _parse_class_mod: a class-flavored module that immediately takes
the pending free text as description and, when capture is in progress, the
usage buffer. -/
def parse_class_mod (params : String) (st : PState) : PState × Option DocEntry :=
  let m : LuaModule :=
    { name := params, is_class_mod := true, desc := pyJoinNl st.pending_str }
  let (m, st) :=
    if st.usage_in_progress then
      ({ m with usage := pyJoinNl st.usage_str },
        { st with usage_in_progress := false })
    else (m, st)
  let (st, i) := st.pushModule m
  ({ st with pending_module := st.pending_module ++ [i] }, some (.moduleRef i))

/-- Embeds _parse_namespace. -/
def parse_namespace (params : String) (st : PState) : PState :=
  { st with name_space := params }

/-- Embeds _parse_overload: the parsed type (whatever it is) is queued; a
parse failure is reported and dropped. -/
def parse_overload (params : String) (st : PState) : PState :=
  match parse_param_field params with
  | some (t, _) => { st with pending_overload := st.pending_overload ++ [t] }
  | none => pReport st ("invalid @overload field: @overload " ++ params)

/-- Embeds _parse_constant: implies @export. -/
def parse_constant (st : PState) : PState :=
  { st with exported := true, constant := true }

/-- Embeds _parse_export. -/
def parse_export (st : PState) : PState :=
  { st with exported := true }

/-- Embeds _parse_class_field: optional visibility word, field name, then an
emmy type payload; the field joins the most recently opened pending class
and is returned either way. -/
def parse_class_field (params : String) (st : PState) : PState × Option DocEntry :=
  let parts := pySplitTwiceSpace params
  if parts.length < 3 then
    (pReport st ("invalid @field tag: @field " ++ params), none)
  else
    let p0 := parts.getD 0 ""
    let p1 := parts.getD 1 ""
    let p2 := parts.getD 2 ""
    let (vis, fname, ftype) :=
      match parse_visibility_str p0 with
      | some v => (v, p1, p2)
      | none => (LuaVisibility.pub, p0, p1 ++ " " ++ p2)
    match parse_param_field ftype with
    | some (t, d) =>
        let fld : LuaClassField :=
          { name := fname, desc := d, type := t, visibility := vis }
        let st := match st.pending_class.getLast? with
          | some i =>
              st.modifyClass i (fun c => { c with fields := c.fields ++ [fld] })
          | none => st
        (st, some (.fieldEntry fld))
    | none => (pReport st ("invalid @field tag: @field " ++ params), none)

/-- Embeds _parse_function.  The free text is consumed first; a dotted or
colon name opens a class shell holding the new method (which also becomes
the pending function), a plain name or no match produces a named function
fragment directly. -/
def parse_function (params : String) (node : AstNode) (st : PState) :
    PState × Option DocEntry :=
  let m := matchFunctionRe params
  let ((sd, ld), st) := get_sd st
  match m with
  | none =>
      let f : LuaFunction :=
        { name := get_lua_function_name node, short_desc := sd, desc := ld }
      let (st, i) := st.pushFunc f
      (st, some (.funcRef i))
  | some nm =>
      if nm.data.contains ':' || nm.data.contains '.' then
        let parts := splitOnColonDot nm
        let p0 := parts.getD 0 ""
        let p1 := parts.getD 1 ""
        let meth : LuaFunction := { name := p1, is_static := nm.data.contains '.' }
        let (st, fi) := st.pushFunc meth
        let c : ClassRec := { name := p0, methods := [fi] }
        let (st, ci) := st.pushClass c
        ({ st with pending_function := st.pending_function ++ [fi] },
          some (.classRef ci))
      else
        let f : LuaFunction := { name := nm, short_desc := sd, desc := ld }
        let (st, i) := st.pushFunc f
        (st, some (.funcRef i))

/-- Embeds _parse_tparam (also used by @string/@int and the
@tparam[opt=...] regex handler): legacy two-field form `TYPE name desc...`
with at least three whitespace-separated parts. -/
def parse_tparam_core (params : String) (is_opt : Bool) (default_value : String)
    (st : PState) : PState :=
  let parts := pySplitWs params
  if 2 < parts.length then
    let t := parse_type (parts.getD 0 "")
    let nm := parts.getD 1 ""
    let d := pyJoin " " (parts.drop 2)
    attachParam st
      { name := nm, desc := d, type := t, is_opt := is_opt,
        default_value := default_value }
  else pReport st ("invalid @tparam tag: @tparam " ++ params)

/-- Embeds _parse_string_param. -/
def parse_string_param (params : String) (st : PState) : PState :=
  parse_tparam_core ("string " ++ params) false "" st

/-- Embeds _parse_int_param. -/
def parse_int_param (params : String) (st : PState) : PState :=
  parse_tparam_core ("int " ++ params) false "" st

/-- Embeds _parse_treturn: `TYPE desc...` with at least two parts. -/
def parse_treturn (params : String) (st : PState) : PState :=
  let parts := pySplitWs params
  if 2 ≤ parts.length then
    let t := parse_type (parts.getD 0 "")
    let d := pyJoin " " (parts.drop 1)
    attachReturn st { desc := d, type := t }
  else pReport st ("invalid @treturn tag: @treturn " ++ params)

/-- Embeds _parse_param (legacy form): name then description. -/
def parse_param_legacy (params : String) (st : PState) : PState :=
  let parts := pySplitWs params
  if 1 < parts.length then
    attachParam st
      { name := parts.getD 0 "", desc := pyJoin " " (parts.drop 1) }
  else pReport st ("invalid @param tag: @param " ++ params)

/-- Embeds _parse_emmy_lua_param: split once at a space into name and type
payload.  A missing payload is an IndexError reported with the original
text; a type-parse failure is reported with the rebound `params` variable,
i.e. only the payload. -/
def parse_emmy_lua_param (params : String) (st : PState) : PState :=
  match pySplitOnceSpace params with
  | [pname, payload] =>
      (match parse_param_field payload with
       | some (t, d) => attachParam st { name := pname, desc := d, type := t }
       | none => pReport st ("invalid @param tag: @param " ++ payload))
  | _ => pReport st ("invalid @param tag: @param " ++ params)

/-- Embeds _parse_return (legacy form): the whole text becomes the
description of an Any-typed return. -/
def parse_return_legacy (params : String) (st : PState) : PState :=
  let parts := pySplitWs params
  if 1 < parts.length then
    attachReturn st { desc := pyJoin " " parts }
  else pReport st ("invalid @return tag: @return " ++ params)

/-- Embeds _parse_emmy_lua_return. -/
def parse_emmy_lua_return (params : String) (st : PState) : PState :=
  match parse_param_field params with
  | some (t, d) => attachReturn st { desc := d, type := t }
  | none => pReport st ("invalid @return tag: @return " ++ params)

/-- Embeds _parse_varargs: a param literally named "...". -/
def parse_varargs (params : String) (st : PState) : PState :=
  match parse_param_field params with
  | some (t, d) => attachParam st { name := "...", desc := d, type := t }
  | none => pReport st ("invalid @param tag: @param " ++ params)

/-- Embeds _parse_type (the @type tag): a LuaValue data fragment named after
the node's identifier, holding the node's literal value. -/
def parse_type_tag (params : String) (node : AstNode) (st : PState) :
    PState × Option DocEntry :=
  match parse_param_field params with
  | some (t, _) =>
      let d : LuaData := .value { name := get_identifier node } t (get_value node)
      let (st, i) := st.pushData d
      ({ st with pending_data := st.pending_data ++ [i] }, some (.dataRef i))
  | none => (pReport st ("invalid @type tag: @type " ++ params), none)

/-- The handler registry of LuaDocParser.__init__ plus the secondary regex
table, keyed by the tag word; @param and @return select the emmy or legacy
handler from the options.  An unknown tag leaves the state unchanged. -/
def handle_tag (opts : DocOptions) (tag arg : String) (node : AstNode)
    (st : PState) : PState × Option DocEntry :=
  match tag with
  | "@abstract" => (parse_abstract st, none)
  | "@class" => parse_class arg st
  | "@classmod" => parse_class_mod arg st
  | "@constant" => (parse_constant st, none)
  | "@deprecated" => (parse_deprecated st, none)
  | "@export" => (parse_export st, none)
  | "@field" => parse_class_field arg st
  | "@function" => parse_function arg node st
  | "@int" => (parse_int_param arg st, none)
  | "@module" => parse_module arg st
  | "@namespace" => (parse_namespace arg st, none)
  | "@overload" => (parse_overload arg st, none)
  | "@param" =>
      if opts.emmy_lua_syntax then (parse_emmy_lua_param arg st, none)
      else (parse_param_legacy arg st, none)
  | "@private" => (parse_private st, none)
  | "@protected" => (parse_protected st, none)
  | "@return" =>
      if opts.emmy_lua_syntax then (parse_emmy_lua_return arg st, none)
      else (parse_return_legacy arg st, none)
  | "@string" => (parse_string_param arg st, none)
  | "@tparam" => (parse_tparam_core arg false "" st, none)
  | "@treturn" => (parse_treturn arg st, none)
  | "@type" => parse_type_tag arg node st
  | "@usage" => (parse_usage st, none)
  | "@virtual" => (parse_virtual st, none)
  | "@vararg" => (parse_varargs arg st, none)
  | _ =>
      match matchTparamOpt tag with
      | some dv => (parse_tparam_core arg true dv st, none)
      | none => (st, none)

/-- Embeds _parse_comment: one comment line.  Lines carrying the comment
marker are stripped of leading marker characters and blanks; an @-word is
dispatched with the blank-stripped remainder; other text feeds the free-text
lines or, in capture mode, the usage buffer (which keeps the original line
minus marker and one blank). -/
def parse_comment (opts : DocOptions) (st : PState) (comment : String)
    (node : AstNode) : PState × Option DocEntry :=
  if pyStartsWith comment opts.comment_start then
    let text := pyLstripChars comment (opts.comment_start ++ " ")
    let parts := pySplitOnceSpace text
    let hd := parts.getD 0 ""
    if pyStartsWith hd "@" then
      let arg := match parts with
        | [_, rest] => pyStrip rest
        | _ => ""
      handle_tag opts hd arg node st
    else if !st.usage_in_progress then
      ({ st with pending_str := st.pending_str ++ [text] }, none)
    else
      ({ st with usage_str :=
          st.usage_str ++ [pyDrop comment (opts.comment_start.data.length + 1)] },
        none)
  else (st, none)

/-- Embeds _create_function_overload: clone name, descriptions, usage, the
three deprecation-style flags and visibility; keep only the original params
whose names occur in the overload's arg_names; extend with the original
returns.  `param.name in arg_names` is a Python TypeError when arg_names is
None (EmmyLuaParser never fills it in) and reading arg_names from a
non-callable is an AttributeError. -/
def create_function_overload (original : LuaFunction) (overload_def : LuaType) :
    Except String LuaFunction :=
  match overload_def with
  | .callable _ arg_names _ =>
      let ov : LuaFunction :=
        { name := original.name, short_desc := original.short_desc,
          desc := original.desc, usage := original.usage,
          is_virtual := original.is_virtual, is_abstract := original.is_abstract,
          is_deprecated := original.is_deprecated,
          visibility := original.visibility }
      (match arg_names with
       | none =>
           if original.params.isEmpty then
             .ok { ov with returns := ov.returns ++ original.returns }
           else .error "TypeError: argument of type NoneType is not iterable"
       | some names =>
           .ok { ov with
             params := original.params.filter (fun p => names.contains p.name),
             returns := ov.returns ++ original.returns })
  | _ => .error "AttributeError: arg_names"

/-- Resolve one doc-entry reference against the final arenas. -/
def materializeClass (st : PState) (c : ClassRec) : LuaClass :=
  { name := c.name, name_in_source := c.name_in_source,
    methods := c.methods.map (fun i => st.funcs.getD i dfltFunc),
    short_desc := c.short_desc, desc := c.desc, usage := c.usage,
    inherits_from := c.inherits_from, fields := c.fields }

/-- Resolve one doc entry. -/
def materialize (st : PState) : DocEntry → LuaNode
  | .funcRef i => .functionNode (st.funcs.getD i dfltFunc)
  | .classRef i => .classNode (materializeClass st (st.classes.getD i dfltClassRec))
  | .moduleRef i => .moduleNode (st.modules.getD i dfltModule)
  | .dataRef i => .dataNode (st.datas.getD i dfltData)
  | .fieldEntry f => .fieldNode f

/-- Embeds LuaDocParser.parse_comments: reset the per-block state, dispatch
every comment line, then resolve the block in source order — @export
synthesis from the attached declaration, pending data, pending class,
pending function free text, anonymous function synthesis from queued
params/returns/qualifiers, qualifier/usage/param/overload folding onto a
trailing function fragment, pending module, and namespace prefixing.  The
returned doc nodes are materialized; the leftover free-text lines ride
along.  The overload TypeError is the one uncaught exception. -/
def parse_comments (opts : DocOptions) (st : PState) (node : AstNode)
    (comments : List String) :
    Except String (PState × List LuaNode × List String) := do
  let st := reset_pending st
  let (st, entries) := comments.foldl
    (fun (acc : PState × List DocEntry) c =>
      let (st, e) := parse_comment opts acc.1 c node
      (st, match e with
           | some e => acc.2 ++ [e]
           | none => acc.2))
    (st, ([] : List DocEntry))
  let (st, entries) :=
    if st.exported && isFunctionInstance node && st.pending_function.isEmpty then
      let ((sd, ld), st) := get_sd st
      let f : LuaFunction :=
        { name := get_identifier node, short_desc := sd, desc := ld }
      let (st, i) := st.pushFunc f
      ({ st with pending_function := st.pending_function ++ [i] },
        entries ++ [DocEntry.funcRef i])
    else (st, entries)
  let st :=
    match st.pending_data.getLast? with
    | some i =>
        let ((sd, ld), st) := get_sd st
        let st := st.modifyData i
          (dataModifyCore (fun c => { c with short_desc := sd, desc := ld }))
        let st :=
          if st.exported then
            st.modifyData i (dataModifyCore (fun c => { c with visibility := .pub }))
          else st
        st.modifyData i (dataModifyCore (fun c => { c with constant := st.constant }))
    | none => st
  let st :=
    match st.pending_class.getLast? with
    | some i =>
        let ((sd, ld), st) := get_sd st
        st.modifyClass i (fun c =>
          { c with short_desc := sd, desc := ld, usage := pyJoinNl st.usage_str })
    | none => st
  let st :=
    match st.pending_function.getLast? with
    | some i =>
        if st.pending_str.isEmpty then st
        else
          let ((sd, ld), st) := get_sd st
          st.modifyFunc i (fun f => { f with short_desc := sd, desc := ld })
    | none => st
  let (st, entries) :=
    if !(st.pending_param.isEmpty && st.pending_return.isEmpty &&
         st.pending_qualifiers.isEmpty) then
      let (st, entries) :=
        if isExactMethod node then
          let ((sd, ld), st) := get_sd st
          let (st, i) := st.pushFunc
            { name := "", short_desc := sd, desc := ld,
              returns := st.pending_return }
          (st, entries ++ [DocEntry.funcRef i])
        else (st, entries)
      if isExactFunction node then
        let ((sd, ld), st) := get_sd st
        let (st, i) := st.pushFunc
          { name := "", short_desc := sd, desc := ld,
            returns := st.pending_return }
        (st, entries ++ [DocEntry.funcRef i])
      else (st, entries)
    else (st, entries)
  let (st, entries) ←
    match entries.getLast? with
    | some (.funcRef i) =>
        let st := st.pending_qualifiers.foldl (fun st q =>
          st.modifyFunc i (fun f =>
            match q with
            | .virtualQ => { f with is_virtual := true }
            | .abstractQ => { f with is_abstract := true }
            | .deprecatedQ => { f with is_deprecated := true }
            | .privateQ => { f with visibility := .priv }
            | .protectedQ => { f with visibility := .prot })) st
        let st :=
          if st.usage_in_progress then
            st.modifyFunc i (fun f => { f with usage := pyJoinNl st.usage_str })
          else st
        let st :=
          if st.pending_param.isEmpty then st
          else
            let st := st.modifyFunc i
              (fun f => { f with params := f.params ++ st.pending_param })
            { st with pending_param := [] }
        st.pending_overload.foldlM
          (fun (acc : PState × List DocEntry) ov => do
            let f ← create_function_overload (acc.1.funcs.getD i dfltFunc) ov
            let (st', j) := acc.1.pushFunc f
            pure (st', acc.2 ++ [DocEntry.funcRef j]))
          (st, entries)
    | _ => pure (st, entries)
  let st :=
    match st.pending_module.getLast? with
    | some i =>
        let st :=
          if st.usage_str.isEmpty then st
          else st.modifyModule i (fun m => { m with usage := pyJoinNl st.usage_str })
        let ((sd, ld), st) := get_sd st
        st.modifyModule i (fun m => { m with short_desc := sd, desc := ld })
    | none => st
  let st :=
    if st.name_space = "" then st
    else
      let st := match st.pending_class.getLast? with
        | some i =>
            st.modifyClass i (fun c => { c with name := st.name_space ++ "." ++ c.name })
        | none => st
      let st := match st.pending_function.getLast? with
        | some i =>
            st.modifyFunc i (fun f => { f with name := st.name_space ++ "." ++ f.name })
        | none => st
      match st.pending_data.getLast? with
      | some i =>
          st.modifyData i
            (dataModifyCore (fun c => { c with name := st.name_space ++ "." ++ c.name }))
      | none => st
  pure (st, entries.map (materialize st), st.pending_str)

/- ================================================================== -/
/- Theorems.                                                           -/
/- ================================================================== -/

/-- The embedded grammar and visitor reproduce the repository's passing
union test (test_parse_or_expr). -/
theorem emmy_example_or :
    parse_param_field "string|number the string" =
      some (.or [.string, .number], "the string") := rfl

/-- Reproduces test_parse_table_expr. -/
theorem emmy_example_table :
    parse_param_field "table<string, number> the number table" =
      some (.dict .string .number, "the number table") := rfl

/-- Reproduces test_parse_array_expr. -/
theorem emmy_example_array :
    parse_param_field "number[]|string[] some array" =
      some (.or [.array .number, .array .string], "some array") := rfl

/-- Reproduces test_parse_fun_expr (a flat signature parses correctly). -/
theorem emmy_example_fun :
    parse_param_field "fun(n: number, s: string) : nil" =
      some (.callable [.number, .string] none [.nil], "") := rfl

/-- C1: evaluating the type payload parser over the full keyword table.
Twelve of the fifteen keywords produce their primitive TypeExpr with an
empty trailing description, but `userdata`, `table` and `tab` produce
`Custom` results: the source's userdata branch compares against the
misspelled literal "userdate" and its table branch compares the string
against a Python list, which never holds.  The claim that every keyword in
the table maps to its primitive variant therefore fails on the code. -/
theorem C1_keyword_table_eval :
    parse_param_field "nil" = some (.nil, "") ∧
    parse_param_field "bool" = some (.boolean, "") ∧
    parse_param_field "boolean" = some (.boolean, "") ∧
    parse_param_field "number" = some (.number, "") ∧
    parse_param_field "int" = some (.number, "") ∧
    parse_param_field "float" = some (.number, "") ∧
    parse_param_field "string" = some (.string, "") ∧
    parse_param_field "function" = some (.function, "") ∧
    parse_param_field "func" = some (.function, "") ∧
    parse_param_field "fun" = some (.function, "") ∧
    parse_param_field "userdata" = some (.custom "userdata", "") ∧
    parse_param_field "thread" = some (.thread, "") ∧
    parse_param_field "table" = some (.custom "table", "") ∧
    parse_param_field "tab" = some (.custom "tab", "") ∧
    parse_param_field "any" = some (.any, "") :=
  ⟨rfl, rfl, rfl, rfl, rfl, rfl, rfl, rfl, rfl, rfl, rfl, rfl, rfl, rfl, rfl⟩

/-- C2: resolving a block that documents params `a` and `b` and carries one
`@overload fun(a: number)` tag, attached to a function declaration, does not
produce two Function fragments: the overload clone iterates
`param.name in overload_def.arg_names` while EmmyLuaParser builds the
callable with arg_names = None, so block resolution raises a TypeError and
the unit fails with no fragments at all. -/
theorem C2_overload_expansion_raises :
    parse_comments {} {} (.functionN (.nameF "foo") [.argName "a", .argName "b"])
      ["--- @param a number first", "--- @param b number second",
       "--- @overload fun(a: number)"] =
      .error "TypeError: argument of type NoneType is not iterable" := rfl

/-- C3: parsing the nested signature from the repository's own test
test_parse_fun_nested_expr.  Because EmmyLuaParser accumulates function
arguments in one shared `_func_params` list (the per-function count stack is
pushed but never consulted), the inner callable steals the outer's first
argument: the result is a Callable with ONE argument, itself a Callable with
args [String, Number] — not the claimed two-argument Callable whose second
argument has one Number arg. -/
theorem C3_nested_fun_eval :
    parse_param_field "fun(s: string, f: fun(i: number))" =
      some (.callable [.callable [.string, .number] none []] none [], "") := rfl

/-- C4 counterexample: after a block containing only `@namespace ns` is
processed from the initial parser state, running the block-start reset (the
exact field re-initialisation of parse_comments) leaves the namespace at
"ns": the namespace prefix survives into the next comment block, so the
whole accumulator state is not reset. -/
theorem C4_namespace_survives_reset :
    ((parse_comments {} {} .chunk ["--- @namespace ns"]).toOption.map
      (fun r => (reset_pending r.1).name_space)) = some "ns" ∧
    ("ns" : String) ≠ "" := ⟨rfl, by decide⟩

/-- C4 amended: the block-start reset clears exactly the thirteen pending
fields (free text, queued params/returns/qualifiers, pending
class/module/data, overloads, export and constant flags, usage flag and
buffer) and preserves the namespace prefix. -/
theorem C4_reset_clears_pending_fields (σ : PState) :
    (reset_pending σ).name_space = σ.name_space ∧
    (reset_pending σ).pending_str = [] ∧
    (reset_pending σ).pending_param = [] ∧
    (reset_pending σ).pending_return = [] ∧
    (reset_pending σ).pending_function = [] ∧
    (reset_pending σ).pending_qualifiers = [] ∧
    (reset_pending σ).pending_class = [] ∧
    (reset_pending σ).pending_module = [] ∧
    (reset_pending σ).usage_in_progress = false ∧
    (reset_pending σ).usage_str = [] ∧
    (reset_pending σ).pending_overload = [] ∧
    (reset_pending σ).pending_data = [] ∧
    (reset_pending σ).exported = false ∧
    (reset_pending σ).constant = false :=
  ⟨rfl, rfl, rfl, rfl, rfl, rfl, rfl, rfl, rfl, rfl, rfl, rfl, rfl, rfl⟩

/-- C5: two class fragments declaring `@class Foo`, both attached to
assignments to the same source identifier `Bar`, do not merge: _add_class
tests membership under the declared name "Foo" (absent) while storing under
the source name "Bar", so the second fragment replaces the first entry and
the first block's methods are lost instead of being concatenated. -/
theorem C5_class_merge_overwrites :
    (do
      let st ← add_class {} { name := "Foo", methods := [{ name := "m1" }] }
        (.assignN [.nameT "Bar"] none)
      add_class st { name := "Foo", methods := [{ name := "m2" }] }
        (.assignN [.nameT "Bar"] none))
    = .ok { class_map := [("Bar",
        { name := "Foo", name_in_source := "Bar",
          methods := [{ name := "m2" }] })] } := rfl

/-- The merge does fire when the declared name and the resolved source name
coincide (the common `@class Foo` / `Foo = ...` case). -/
theorem class_merge_same_name :
    (do
      let st ← add_class {} { name := "Foo", methods := [{ name := "m1" }] } .chunk
      add_class st { name := "Foo", methods := [{ name := "m2" }] } .chunk)
    = .ok { class_map := [("Foo",
        { name := "Foo", name_in_source := "Foo",
          methods := [{ name := "m1" }, { name := "m2" }] })] } := rfl

/-- auto_private never changes the params list. -/
theorem auto_private_params (opts : DocOptions) (g : LuaFunction) :
    (auto_private opts g).params = g.params := by
  unfold auto_private
  split <;> rfl

/-- auto_private never changes the is_static flag. -/
theorem auto_private_is_static (opts : DocOptions) (g : LuaFunction) :
    (auto_private opts g).is_static = g.is_static := by
  unfold auto_private
  split <;> rfl

/-- auto_private never changes the name. -/
theorem auto_private_name (opts : DocOptions) (g : LuaFunction) :
    (auto_private opts g).name = g.name := by
  unfold auto_private
  split <;> rfl

/-- When the result of auto_private carries a name starting with the private
marker, its visibility is Private. -/
theorem auto_private_of_startsWith (opts : DocOptions) (g : LuaFunction)
    (h : pyStartsWith (auto_private opts g).name opts.private_marker = true) :
    (auto_private opts g).visibility = .priv := by
  unfold auto_private at *
  by_cases hc : pyStartsWith g.name opts.private_marker = true
  · rw [if_pos hc]
  · rw [if_neg hc] at h ⊢
    exact absurd h hc

/-- staticRename never changes the params list. -/
theorem staticRename_params (f : LuaFunction) (ast : AstNode) :
    (staticRename f ast).params = f.params := by
  unfold staticRename
  split <;> rfl

/-- place never touches the diagnostics. -/
theorem place_errors (st : VState) (fr : LuaFunction) (ast : AstNode) :
    (place st fr ast).errors = st.errors := by
  unfold place
  split <;> (try split) <;> (try split) <;> (try split) <;> rfl

/-- place never flips whether a module exists. -/
theorem place_module_isSome (st : VState) (fr : LuaFunction) (ast : AstNode) :
    (place st fr ast).module.isSome = st.module.isSome := by
  unfold place
  split <;> (try split) <;> try rfl
  rename_i hmod
  split
  · split <;> simp_all
  · simp_all

/-- add_class never touches the module singleton. -/
theorem add_class_preserves_module (st : VState) (c : LuaClass) (ast : AstNode)
    (st' : VState) (h : add_class st c ast = .ok st') :
    st'.module = st.module := by
  simp only [add_class] at h
  repeat' split at h
  all_goals try exact Except.noConfusion h
  all_goals (injection h with h2; subst h2; rfl)

/-- A routed function fragment never flips whether a module exists. -/
theorem add_function_ok_module_isSome (opts : DocOptions) (st : VState)
    (f : LuaFunction) (ast : AstNode) (res : VState × LuaFunction)
    (h : add_function opts st f ast = .ok res) :
    res.1.module.isSome = st.module.isSome := by
  unfold add_function at h
  split at h
  · exact Except.noConfusion h
  · injection h with h2
    subst h2
    exact place_module_isSome _ _ _

/-- add_data never flips whether a module exists. -/
theorem add_data_module_isSome (st : VState) (d : LuaData) :
    (add_data st d).module.isSome = st.module.isSome := by
  unfold add_data
  split <;> simp_all

/-- A Module fragment dispatched while a module already exists is the
unit-fatal duplicate-module error. -/
theorem dispatch_module_some_dup (opts : DocOptions) (st : VState)
    (m : LuaModule) (ast : AstNode) (h : st.module.isSome = true) :
    dispatch_fragment opts st (.moduleNode m) ast =
      .error "only one @module is allowed by file" := by
  unfold dispatch_fragment add_module
  cases hm : st.module with
  | none => rw [hm] at h; simp at h
  | some m' => rfl

/-- A Module fragment dispatched with no module yet installs it. -/
theorem dispatch_module_none (opts : DocOptions) (st : VState) (m : LuaModule)
    (ast : AstNode) (h : st.module = none) :
    dispatch_fragment opts st (.moduleNode m) ast =
      .ok { st with module := some m } := by
  unfold dispatch_fragment add_module
  rw [h]

/-- A successfully dispatched non-module fragment never flips whether a
module exists. -/
theorem dispatch_nonmodule_isSome (opts : DocOptions) (st : VState)
    (n : LuaNode) (ast : AstNode) (st' : VState)
    (h : dispatch_fragment opts st n ast = .ok st')
    (hn : isModuleFrag n = false) :
    st'.module.isSome = st.module.isSome := by
  cases n with
  | functionNode f =>
      simp only [dispatch_fragment] at h
      cases hres : add_function opts st f ast with
      | error e => rw [hres] at h; exact Except.noConfusion h
      | ok res =>
          rw [hres] at h
          injection h with h2
          subst h2
          exact add_function_ok_module_isSome _ _ _ _ _ hres
  | classNode c =>
      simp only [dispatch_fragment] at h
      rw [add_class_preserves_module _ _ _ _ h]
  | moduleNode m => simp [isModuleFrag] at hn
  | dataNode d =>
      simp only [dispatch_fragment] at h
      injection h with h2
      subst h2
      exact add_data_module_isSome _ _
  | fieldNode fld =>
      simp only [dispatch_fragment] at h
      injection h with h2
      subst h2
      rfl

/-- Unfolding one step of the fragment walk. -/
theorem process_fragments_cons (opts : DocOptions) (st : VState) (n : LuaNode)
    (a : AstNode) (tl : List (LuaNode × AstNode)) :
    process_fragments opts st ((n, a) :: tl) =
      match dispatch_fragment opts st n a with
      | .ok s => process_fragments opts s tl
      | .error e => .error e := by
  cases hd : dispatch_fragment opts st n a <;>
    · simp only [process_fragments, List.foldlM_cons, hd]
      rfl

/-- Once a module exists, a fragment stream still containing a Module
fragment aborts the unit. -/
theorem process_error_of_module_some (opts : DocOptions) :
    ∀ (frags : List (LuaNode × AstNode)) (st : VState),
      1 ≤ (frags.filter (fun p => isModuleFrag p.1)).length →
      st.module.isSome = true →
      ∃ e, process_fragments opts st frags = .error e := by
  intro frags
  induction frags with
  | nil => intro st hcount _; simp at hcount
  | cons hd tl ih =>
      intro st hcount hsome
      obtain ⟨n, a⟩ := hd
      by_cases hmod : isModuleFrag n = true
      · cases n with
        | moduleNode m =>
            refine ⟨"only one @module is allowed by file", ?_⟩
            rw [process_fragments_cons,
              dispatch_module_some_dup opts st m a hsome]
        | functionNode f => simp [isModuleFrag] at hmod
        | classNode c => simp [isModuleFrag] at hmod
        | dataNode d => simp [isModuleFrag] at hmod
        | fieldNode fld => simp [isModuleFrag] at hmod
      · cases hd : dispatch_fragment opts st n a with
        | error e => exact ⟨e, by rw [process_fragments_cons, hd]⟩
        | ok st' =>
            have hsome' : st'.module.isSome = true := by
              rw [dispatch_nonmodule_isSome opts st n a st' hd
                (by simpa using hmod)]
              exact hsome
            have hcount' : 1 ≤ (tl.filter (fun p => isModuleFrag p.1)).length := by
              rw [List.filter_cons, if_neg (by simpa using hmod)] at hcount
              exact hcount
            obtain ⟨e, he⟩ := ih st' hcount' hsome'
            exact ⟨e, by rw [process_fragments_cons, hd]; exact he⟩

/-- Starting with no module, a fragment stream containing at least two
Module fragments aborts the unit. -/
theorem process_error_of_two_modules (opts : DocOptions) :
    ∀ (frags : List (LuaNode × AstNode)) (st : VState),
      2 ≤ (frags.filter (fun p => isModuleFrag p.1)).length →
      st.module = none →
      ∃ e, process_fragments opts st frags = .error e := by
  intro frags
  induction frags with
  | nil => intro st hcount _; simp at hcount
  | cons hd tl ih =>
      intro st hcount hnone
      obtain ⟨n, a⟩ := hd
      by_cases hmod : isModuleFrag n = true
      · cases n with
        | moduleNode m =>
            have hd := dispatch_module_none opts st m a hnone
            have hcount' : 1 ≤ (tl.filter (fun p => isModuleFrag p.1)).length := by
              rw [List.filter_cons, if_pos (by simpa using hmod)] at hcount
              simp only [List.length_cons] at hcount
              omega
            obtain ⟨e, he⟩ := process_error_of_module_some opts tl
              { st with module := some m } hcount' rfl
            exact ⟨e, by rw [process_fragments_cons, hd]; exact he⟩
        | functionNode f => simp [isModuleFrag] at hmod
        | classNode c => simp [isModuleFrag] at hmod
        | dataNode d => simp [isModuleFrag] at hmod
        | fieldNode fld => simp [isModuleFrag] at hmod
      · cases hd : dispatch_fragment opts st n a with
        | error e => exact ⟨e, by rw [process_fragments_cons, hd]⟩
        | ok st' =>
            have hnone' : st'.module = none := by
              have h2 := dispatch_nonmodule_isSome opts st n a st' hd
                (by simpa using hmod)
              rw [hnone] at h2
              cases ho : st'.module with
              | none => rfl
              | some x => rw [ho] at h2; simp at h2
            have hcount' : 2 ≤ (tl.filter (fun p => isModuleFrag p.1)).length := by
              rw [List.filter_cons, if_neg (by simpa using hmod)] at hcount
              exact hcount
            obtain ⟨e, he⟩ := ih st' hcount' hnone'
            exact ⟨e, by rw [process_fragments_cons, hd]; exact he⟩

/-- C6: a source unit whose fragment stream carries two Module fragments
(two @module/@classmod tags) fails with a unit-level error, so the unit
yields no Module; and the batch collector still gathers the other units'
modules around a failed one. -/
theorem C6_duplicate_module_fatal (opts : DocOptions)
    (frags : List (LuaNode × AstNode)) (fp : String) (m₁ m₂ : LuaModule)
    (msg : String)
    (h : 2 ≤ (frags.filter (fun p => isModuleFrag p.1)).length) :
    (∃ e, process_unit opts frags fp = .error e) ∧
    run_batch [.ok m₁, .error msg, .ok m₂] = [m₁, m₂] := by
  constructor
  · obtain ⟨e, he⟩ := process_error_of_two_modules opts frags {} h rfl
    refine ⟨e, ?_⟩
    unfold process_unit
    rw [he]
    rfl
  · rfl

/-- C6 witness: two module fragments in one unit, batch around a failure. -/
theorem C6_duplicate_module_fatal_witness :
    (∃ e, process_unit {} [(.moduleNode { name := "a" }, .chunk),
        (.moduleNode { name := "b" }, .chunk)] "f.lua" = .error e) ∧
    run_batch [.ok { name := "u1" }, .error "boom", .ok { name := "u2" }] =
      [{ name := "u1" }, { name := "u2" }] :=
  C6_duplicate_module_fatal {}
    [(.moduleNode { name := "a" }, .chunk), (.moduleNode { name := "b" }, .chunk)]
    "f.lua" { name := "u1" } { name := "u2" } "boom" (by decide)

/-- C7: every Function fragment routed by the Model Assembler whose final
resolved name starts with the configured private marker ends Private,
whatever visibility it carried before: _auto_private is the last step of
_add_function and overwrites the visibility unconditionally. -/
theorem C7_auto_private_forced (opts : DocOptions) (st : VState)
    (f : LuaFunction) (ast : AstNode) (st' : VState) (f' : LuaFunction)
    (h : add_function opts st f ast = .ok (st', f'))
    (hp : pyStartsWith f'.name opts.private_marker = true) :
    f'.visibility = .priv := by
  unfold add_function at h
  split at h
  · exact Except.noConfusion h
  · injection h with h2
    injection h2 with h3 h4
    subst h4
    exact auto_private_of_startsWith _ _ hp

/-- C7 witness: a fragment named "_f", documented Public, attached to a bare
node, is forced Private. -/
theorem C7_auto_private_forced_witness :
    ({ name := "_f", visibility := .priv } : LuaFunction).visibility = .priv :=
  C7_auto_private_forced {} {} { name := "_f" } .chunk
    { function_list := [{ name := "_f", visibility := .priv }] }
    { name := "_f", visibility := .priv } rfl rfl

/-- Membership in a zip is index-correlated membership in both lists. -/
theorem mem_zip_iff_getElem {α β : Type} (l₁ : List α) (l₂ : List β)
    (x : α × β) :
    x ∈ l₁.zip l₂ ↔ ∃ i : Nat, l₁[i]? = some x.1 ∧ l₂[i]? = some x.2 := by
  obtain ⟨x₁, x₂⟩ := x
  induction l₁ generalizing l₂ with
  | nil => simp
  | cons a t ih =>
      cases l₂ with
      | nil => simp
      | cons b t₂ =>
          simp only [List.zip_cons_cons, List.mem_cons, ih]
          constructor
          · rintro (h | ⟨i, h₁, h₂⟩)
            · injection h with h1 h2
              subst h1
              subst h2
              exact ⟨0, by simp, by simp⟩
            · exact ⟨i + 1, by simpa using h₁, by simpa using h₂⟩
          · rintro ⟨i, h₁, h₂⟩
            cases i with
            | zero =>
                simp only [List.getElem?_cons_zero, Option.some.injEq] at h₁ h₂
                left
                rw [h₁, h₂]
            | succ i =>
                right
                exact ⟨i, by simpa using h₁, by simpa using h₂⟩

/-- C8: for a fragment attached to a plain (non-method) function
declaration, a diagnostic is logged iff the documented params outnumber the
code parameters or some documented name differs from the positional code
parameter name (variadic positions skipped); the check is non-fatal and the
fragment keeps its documented params unchanged, the diagnostics being merely
appended to the error log. -/
theorem C8_param_check (opts : DocOptions) (st : VState) (f : LuaFunction)
    (nm : FuncName) (args : List AstArg) (hn : f.name ≠ "") :
    (check_function_args f (.functionN nm args) ≠ [] ↔
      (args.length < f.params.length ∨
        ∃ (i : Nat) (p : LuaParam) (id : String),
          f.params[i]? = some p ∧ args[i]? = some (.argName id) ∧
          p.name ≠ id)) ∧
    ∃ st' f', add_function opts st f (.functionN nm args) = .ok (st', f') ∧
      f'.params = f.params ∧
      st'.errors = st.errors ++ check_function_args f (.functionN nm args) := by
  have hcf : check_function_args f (.functionN nm args) =
      (if args.length < f.params.length then
        ["function: \"" ++ f.name ++ "\": too many documented params: " ++
          pyJoin ", " ((f.params.drop args.length).map (·.name))]
      else []) ++
      ((f.params.zip args).filterMap (fun pa =>
        match pa.2 with
        | .varargsA => none
        | .argName id =>
            if pa.1.name ≠ id then
              some ("function: \"" ++ f.name ++ "\": doc param found \"" ++
                pa.1.name ++ "\", expected \"" ++ id ++ "\"")
            else none)) := rfl
  constructor
  · rw [hcf]
    constructor
    · intro hne
      by_cases hlen : args.length < f.params.length
      · exact Or.inl hlen
      · right
        rw [if_neg hlen, List.nil_append] at hne
        have hnotall : ¬ ∀ pa ∈ f.params.zip args,
            (fun pa : LuaParam × AstArg =>
              match pa.2 with
              | .varargsA => none
              | .argName id =>
                  if pa.1.name ≠ id then
                    some ("function: \"" ++ f.name ++ "\": doc param found \"" ++
                      pa.1.name ++ "\", expected \"" ++ id ++ "\"")
                  else none) pa = none := by
          intro hall
          exact hne (List.filterMap_eq_nil_iff.mpr hall)
        push_neg at hnotall
        obtain ⟨⟨p, a⟩, hmem, hga⟩ := hnotall
        obtain ⟨i, h₁, h₂⟩ := (mem_zip_iff_getElem _ _ _).mp hmem
        cases a with
        | varargsA => simp at hga
        | argName id =>
            dsimp only at hga
            by_cases hneq : p.name ≠ id
            · exact ⟨i, p, id, h₁, h₂, hneq⟩
            · rw [if_neg hneq] at hga
              exact absurd rfl hga
    · rintro (hlen | ⟨i, p, id, h₁, h₂, hneq⟩)
      · intro hcontra
        rw [List.append_eq_nil] at hcontra
        rw [if_pos hlen] at hcontra
        exact List.noConfusion hcontra.1
      · intro hcontra
        rw [List.append_eq_nil] at hcontra
        have hmem : (p, AstArg.argName id) ∈ f.params.zip args :=
          (mem_zip_iff_getElem _ _ _).mpr ⟨i, h₁, h₂⟩
        have hnone := List.filterMap_eq_nil_iff.mp hcontra.2 _ hmem
        dsimp only at hnone
        rw [if_pos hneq] at hnone
        exact Option.noConfusion hnone
  · refine ⟨place { st with errors :=
        st.errors ++ check_function_args f (.functionN nm args) }
        (auto_private opts (staticRename f (.functionN nm args)))
        (.functionN nm args),
      auto_private opts (staticRename f (.functionN nm args)), ?_, ?_, ?_⟩
    · unfold add_function
      rw [if_neg hn]
    · rw [auto_private_params, staticRename_params]
    · rw [place_errors]

/-- C8 witness: one param documented as `x` against code parameter `y`
produces exactly the mismatch diagnostic, the fragment survives. -/
theorem C8_param_check_witness :
    (check_function_args { name := "f", params := [{ name := "x" }] }
        (.functionN (.nameF "f") [.argName "y"]) ≠ [] ↔
      ([AstArg.argName "y"].length <
          ([{ name := "x" }] : List LuaParam).length ∨
        ∃ (i : Nat) (p : LuaParam) (id : String),
          ([{ name := "x" }] : List LuaParam)[i]? = some p ∧
          [AstArg.argName "y"][i]? = some (.argName id) ∧ p.name ≠ id)) ∧
    ∃ st' f',
      add_function {} {} { name := "f", params := [{ name := "x" }] }
        (.functionN (.nameF "f") [.argName "y"]) = .ok (st', f') ∧
      f'.params = ({ name := "f", params := [{ name := "x" }] } : LuaFunction).params ∧
      st'.errors = ([] : List String) ++
        check_function_args { name := "f", params := [{ name := "x" }] }
          (.functionN (.nameF "f") [.argName "y"]) :=
  C8_param_check {} {} { name := "f", params := [{ name := "x" }] }
    (.nameF "f") [.argName "y"] (by decide)

/-- C9 counterexample: a fragment attached to the dotted declaration
`Foo.bar` when `Foo` is not a known class and no module has been declared is
renamed and marked static but attached to nothing: the resulting state holds
it in no class, no module and not even the flat function list, refuting the
claim that it always lands in a class or in the module's functions. -/
theorem C9_static_function_dropped :
    add_function {} {} { name := "x" }
      (.functionN (.indexF (.nameP "bar") (.nameP "Foo")) []) =
      .ok ({}, { name := "bar", is_static := true }) := rfl

/-- C9 amended: the dotted static fragment is split into owner and member,
marked is_static and auto-private-finalized; it is appended to the owner's
class entry when the owner is known, otherwise to the module's function
list when a non-class-flavored module exists, and otherwise it is dropped
(no collection changes). -/
theorem C9_static_function_routing (opts : DocOptions) (st : VState)
    (f : LuaFunction) (ip vp : IndexPart) (args : List AstArg) :
    ∃ st' fr,
      add_function opts st f (.functionN (.indexF ip vp) args) = .ok (st', fr) ∧
      fr = auto_private opts
        { f with name := (read_index ip vp).1, is_static := true } ∧
      fr.is_static = true ∧
      (dictHasKey st.class_map (read_index ip vp).2 = true →
        st'.class_map =
          classMapAppendMethod st.class_map (read_index ip vp).2 fr ∧
        st'.module = st.module ∧ st'.function_list = st.function_list) ∧
      (dictHasKey st.class_map (read_index ip vp).2 = false →
        st'.class_map = st.class_map ∧ st'.function_list = st.function_list ∧
        ((∃ m, st.module = some m ∧ m.is_class_mod = false ∧
            st'.module = some { m with functions := m.functions ++ [fr] }) ∨
          ((st.module = none ∨
              ∃ m, st.module = some m ∧ m.is_class_mod = true) ∧
            st'.module = st.module))) := by
  have hadd : add_function opts st f (.functionN (.indexF ip vp) args) =
      .ok (place { st with errors := st.errors ++
          check_function_args f (.functionN (.indexF ip vp) args) }
        (auto_private opts
          { f with name := (read_index ip vp).1, is_static := true })
        (.functionN (.indexF ip vp) args),
        auto_private opts
          { f with name := (read_index ip vp).1, is_static := true }) := by
    unfold add_function
    by_cases hname : f.name = ""
    · rw [if_pos hname]
      rfl
    · rw [if_neg hname]
      rfl
  refine ⟨_, _, hadd, rfl, ?_, ?_, ?_⟩
  · rw [auto_private_is_static]
  · intro hk
    unfold place
    dsimp only
    rw [if_pos hk]
    exact ⟨rfl, rfl, rfl⟩
  · intro hk
    unfold place
    dsimp only
    rw [if_neg (by simp [hk])]
    cases hm : st.module with
    | none =>
        exact ⟨rfl, rfl, Or.inr ⟨Or.inl rfl, rfl⟩⟩
    | some m =>
        dsimp only
        by_cases hcm : m.is_class_mod = true
        · rw [if_pos hcm]
          exact ⟨rfl, rfl, Or.inr ⟨Or.inr ⟨m, rfl, hcm⟩, rfl⟩⟩
        · rw [if_neg hcm]
          exact ⟨rfl, rfl, Or.inl ⟨m, rfl, by simpa using hcm, rfl⟩⟩

/-- C9 witness: the amended routing applied to the dropped-case input. -/
theorem C9_static_function_routing_witness :
    ∃ st' fr,
      add_function {} {} { name := "x" }
        (.functionN (.indexF (.nameP "bar") (.nameP "Foo")) []) = .ok (st', fr) ∧
      fr = auto_private {}
        { ({ name := "x" } : LuaFunction) with
          name := (read_index (.nameP "bar") (.nameP "Foo")).1,
          is_static := true } ∧
      fr.is_static = true ∧
      (dictHasKey (VState.class_map {}) (read_index (.nameP "bar") (.nameP "Foo")).2 = true →
        st'.class_map =
          classMapAppendMethod (VState.class_map {})
            (read_index (.nameP "bar") (.nameP "Foo")).2 fr ∧
        st'.module = VState.module {} ∧
        st'.function_list = VState.function_list {}) ∧
      (dictHasKey (VState.class_map {}) (read_index (.nameP "bar") (.nameP "Foo")).2 = false →
        st'.class_map = VState.class_map {} ∧
        st'.function_list = VState.function_list {} ∧
        ((∃ m, VState.module {} = some m ∧ m.is_class_mod = false ∧
            st'.module = some { m with functions := m.functions ++ [fr] }) ∨
          ((VState.module {} = none ∨
              ∃ m, VState.module {} = some m ∧ m.is_class_mod = true) ∧
            st'.module = VState.module {}))) :=
  C9_static_function_routing {} {} { name := "x" } (.nameP "bar") (.nameP "Foo") []

/-- C10: retrieving the model of a class-flavored module raises the
unit-fatal SyntaxException unless exactly one class was collected; with
exactly one, that class is renamed to the module's name, receives the
module's description and usage, and is appended as the module's class
entry. -/
theorem C10_classmod_model (st : VState) (fp : String) (m : LuaModule)
    (hm : st.module = some m) (hcm : m.is_class_mod = true) :
    (st.class_map.length ≠ 1 →
      get_model st fp = .error "in a @classmod, only one class is allowed") ∧
    ∀ k c, st.class_map = [(k, c)] →
      get_model st fp = .ok
        { m with
          file_path := fp,
          classes := m.classes ++
            [{ c with name := m.name, desc := m.desc, usage := m.usage }],
          functions := m.functions ++ st.function_list } := by
  unfold get_model
  rw [hm]
  have hcm' : ({ m with file_path := fp } : LuaModule).is_class_mod = true := hcm
  rw [if_pos hcm']
  constructor
  · intro hlen
    cases hmap : st.class_map with
    | nil => rfl
    | cons hd tl =>
        cases tl with
        | nil =>
            exact absurd (by rw [hmap]; rfl) hlen
        | cons hd₂ tl₂ => rfl
  · intro k c hmap
    rw [hmap]

/-- C10 witness: a classmod with one collected class folds it in; the error
side fires on the empty table. -/
theorem C10_classmod_model_witness :
    ((VState.class_map
        { module := some
            { name := "M", is_class_mod := true, desc := "D", usage := "U" },
          class_map :=
            [("Foo", { name := "Foo", name_in_source := "Foo" })] }).length ≠ 1 →
      get_model
        { module := some
            { name := "M", is_class_mod := true, desc := "D", usage := "U" },
          class_map :=
            [("Foo", { name := "Foo", name_in_source := "Foo" })] } "p.lua" =
        .error "in a @classmod, only one class is allowed") ∧
    ∀ k c,
      (VState.class_map
        { module := some
            { name := "M", is_class_mod := true, desc := "D", usage := "U" },
          class_map :=
            [("Foo", { name := "Foo", name_in_source := "Foo" })] }) = [(k, c)] →
      get_model
        { module := some
            { name := "M", is_class_mod := true, desc := "D", usage := "U" },
          class_map :=
            [("Foo", { name := "Foo", name_in_source := "Foo" })] } "p.lua" =
        .ok
          { ({ name := "M", is_class_mod := true, desc := "D",
               usage := "U" } : LuaModule) with
            file_path := "p.lua",
            classes := ({ name := "M", is_class_mod := true, desc := "D",
                          usage := "U" } : LuaModule).classes ++
              [{ c with name := "M", desc := "D", usage := "U" }],
            functions := [] } :=
  C10_classmod_model _ "p.lua" _ rfl rfl

end PyLuaDoc
